import Mathlib

/-!
Verification development for the ValueLens API v4 backend (`src/app.py`).

The Python source is shallowly embedded below.  Conventions:
* Python floats/ints are modelled as exact rationals (`ℚ`); the one place the
  code does real-exponent arithmetic (`math.pow(x, 1/n)` in `calc_cagr`) is
  modelled over `ℝ`.
* Python's `round(x, d)` (round-half-to-even on the exact value) is modelled by
  `pyRoundQ` / `pyRoundR`.
* Fallible provider calls (`fetch_isma`, `fetch_eodhd_financials`,
  `fetch_yfinance_financials`, the batch HTTP call) are external HTTP
  adapters; their *results* enter the embedding as `Option`-valued oracles,
  exactly the `None`-or-dict values the Python functions return.
* A Python statement that can raise (`1 / n` with `n = 0` inside `calc_cagr`)
  is modelled with `Except String`; the error value plays the exception.
* The module-level `cache` dict is modelled as an association list of
  `(key, {d, t})` pairs; `time.time()` is an explicit `now : ℚ` argument.
-/

namespace ValueLens

/-! ### Python `round` (half-to-even), over ℚ and ℝ -/

/-- Round half to even, over `ℚ` (Python `round` on an exactly represented
value).  Ties (fractional part exactly 1/2) go to the even integer. -/
def roundHalfEvenQ (x : ℚ) : ℤ :=
  if Int.fract x = 1 / 2 then (if ⌊x⌋ % 2 = 0 then ⌊x⌋ else ⌊x⌋ + 1) else round x

/-- Python `round(x, d)` over `ℚ`. -/
def pyRoundQ (x : ℚ) (d : ℕ) : ℚ :=
  (roundHalfEvenQ (x * 10 ^ d) : ℚ) / 10 ^ d

open scoped Classical in
/-- Round half to even, over `ℝ`. -/
noncomputable def roundHalfEvenR (x : ℝ) : ℤ :=
  if Int.fract x = 1 / 2 then (if ⌊x⌋ % 2 = 0 then ⌊x⌋ else ⌊x⌋ + 1) else round x

/-- Python `round(x, d)` over `ℝ`. -/
noncomputable def pyRoundR (x : ℝ) (d : ℕ) : ℝ :=
  (roundHalfEvenR (x * 10 ^ d) : ℝ) / 10 ^ d

/-! ### Python string operations used by the app -/

/-- Worker for `replaceAll`; `fuel` is an upper bound on the remaining input
length (structural recursion on `fuel` keeps the definition kernel-reducible;
each step consumes at least one character, so starting `fuel` at the input's
length makes the `0` case unreachable). -/
def replaceAllGo (pat rep : List Char) : ℕ → List Char → List Char
  | _, [] => []
  | 0, s => s
  | fuel + 1, c :: rest =>
    if pat ≠ [] ∧ pat.isPrefixOf (c :: rest) then
      rep ++ replaceAllGo pat rep fuel ((c :: rest).drop pat.length)
    else
      c :: replaceAllGo pat rep fuel rest

/-- Python `str.replace(pat, rep)` on character lists: replaces every
(non-overlapping, leftmost-first) occurrence of a nonempty `pat`. -/
def replaceAll (pat rep s : List Char) : List Char :=
  replaceAllGo pat rep s.length s

/-- Python `s.replace(pat, rep)` on `String`. -/
def pyReplace (s pat rep : String) : String :=
  ⟨replaceAll pat.toList rep.toList s.toList⟩

/-- Python `s.upper()` (ASCII; ticker symbols are ASCII). -/
def pyUpper (s : String) : String := ⟨s.toList.map Char.toUpper⟩

/-- Python `s.lower()` (ASCII). -/
def pyLower (s : String) : String := ⟨s.toList.map Char.toLower⟩

/-- Python `s.strip()`: drop leading and trailing whitespace. -/
def pyStrip (s : String) : String :=
  ⟨((s.toList.dropWhile Char.isWhitespace).reverse.dropWhile Char.isWhitespace).reverse⟩

/-- Embeds `app.py:269` — `symbol.upper().replace(".NS", "").replace(".BO", "")`. -/
def normalizeSym (s : String) : String :=
  pyReplace (pyReplace (pyUpper s) ".NS" "") ".BO" ""

/-- Embeds `app.py:354` — `s.replace(".NS", "").replace(".BO", "")` (no upper-casing)
used when building the batch upstream request. -/
def stripSfx (s : String) : String :=
  pyReplace (pyReplace s ".NS" "") ".BO" ""

/-- Modelled from the spec's words (for comparison with `normalizeSym`): a
symbol is "normalized by stripping exchange suffixes (e.g. `.NS`, `.BO`)",
i.e. upper-cased with only a single *trailing* `.NS` / `.BO` removed. -/
def specNormalizeSym (s : String) : String :=
  let u := s.toList.map Char.toUpper
  if (".NS".toList).isSuffixOf u then ⟨u.take (u.length - 3)⟩
  else if (".BO".toList).isSuffixOf u then ⟨u.take (u.length - 3)⟩
  else ⟨u⟩

/-! ### Cache (`app.py:37-53`) -/

/-- One cache slot — Python dict `{"d": data, "t": time.time()}`. -/
structure CEntry (α : Type) where
  d : α
  t : ℚ
  deriving Repr, DecidableEq

/-- The module-level `cache` dict, as an association list (first binding for a
key is the current one; `set_cache`/deletion keep at most one binding). -/
abbrev Cache (α : Type) := List (String × CEntry α)

/-- Embeds `app.py:39` — `TTL = {"quote": 300, "financials": 86400, "search": 86400}`
together with the `TTL.get(ttl_type, 300)` default. -/
def TTL (ttl_type : String) : ℚ :=
  if ttl_type = "quote" then 300
  else if ttl_type = "financials" then 86400
  else if ttl_type = "search" then 86400
  else 300

/-- Embeds `app.py:42-49` — `cached(key, ttl_type)`.  Returns the payload (or `none`)
together with the cache as left behind (an expired entry is deleted). -/
def cached {α : Type} (c : Cache α) (key : String) (ttl_type : String) (now : ℚ) :
    Option α × Cache α :=
  match c.find? (fun p => p.1 == key) with
  | none => (none, c)
  | some p =>
    if now - p.2.t > TTL ttl_type then
      (none, c.filter (fun q => !(q.1 == key)))
    else
      (some p.2.d, c)

/-- Embeds `app.py:52-53` — `set_cache(key, data)`: `cache[key] = {"d": data, "t": now}`. -/
def set_cache {α : Type} (c : Cache α) (key : String) (data : α) (now : ℚ) : Cache α :=
  (key, ⟨data, now⟩) :: c.filter (fun q => !(q.1 == key))

/-! ### Data shapes returned by the provider adapters -/

/-- The dict returned by `fetch_isma` (`app.py:72-87`); all fields already
defaulted by the adapter's `d.get(..., 0)` calls. -/
structure RealtimeQuote where
  cmp : ℚ
  mcap_raw : ℚ
  pe : ℚ
  eps : ℚ
  sector : String
  industry : String
  name : String
  change : ℚ
  changePct : ℚ
  yearHigh : ℚ
  yearLow : ℚ
  volume : ℚ
  bookValue : ℚ
  dividendYield : ℚ

/-- One element of the `years` list built by both financials adapters
(`app.py:151-155`, `194-198`): `{"year": ..., "rev": ..., "pat": ...}`. -/
structure YearEntry where
  year : String
  rev : ℚ
  pat : ℚ

/-- The dict returned by the financials adapters: `{"years": ..., "shares": ...}`
(`app.py:161`, `199`). -/
structure FinSeries where
  years : List YearEntry
  shares : ℚ

/-- Python `entry.get(field, 0)` on a `years` element, for the numeric fields
the app reads (`"rev"` / `"pat"`); any other key defaults to `0`.
(Passing `"year"` to `calc_cagr` would raise a `TypeError` comparing `str`
with `int` in Python; the embedding only covers the numeric fields, which is
all the claims and the app itself use.) -/
def getField (e : YearEntry) (field : String) : ℚ :=
  if field = "rev" then e.rev else if field = "pat" then e.pat else 0

/-! ### `calc_cagr` (`app.py:206-214`) -/

/-- Embeds `app.py:206-214`.  `Except.error` models the `ZeroDivisionError` raised by
the Python expression `1 / n` when `n = 0` (it is evaluated only after the
length and positivity guards have passed).  Both endpoint values are read with
`.get(field, 0)`; a missing field therefore behaves like `0` and trips the
positivity guard. -/
noncomputable def calc_cagr (arr : List YearEntry) (field : String) (n : ℕ) :
    Except String (Option ℝ) :=
  if arr.length < n + 1 then .ok none
  else
    let a := getField (arr.getD 0 ⟨"", 0, 0⟩) field
    let b := getField (arr.getD n ⟨"", 0, 0⟩) field
    if b ≤ 0 ∨ a ≤ 0 then .ok none
    else if n = 0 then .error "ZeroDivisionError"
    else .ok (some (pyRoundR ((((a : ℝ) / (b : ℝ)) ^ ((1 : ℝ) / (n : ℝ)) - 1) * 100) 1))

/-- The value `calc_cagr` returns whenever it does not raise (`n ≠ 0`);
proved equal to it in `calc_cagr_eq_ok`. -/
noncomputable def cagrOpt (arr : List YearEntry) (field : String) (n : ℕ) : Option ℝ :=
  if arr.length < n + 1 then none
  else
    let a := getField (arr.getD 0 ⟨"", 0, 0⟩) field
    let b := getField (arr.getD n ⟨"", 0, 0⟩) field
    if b ≤ 0 ∨ a ≤ 0 then none
    else some (pyRoundR ((((a : ℝ) / (b : ℝ)) ^ ((1 : ℝ) / (n : ℝ)) - 1) * 100) 1)

theorem calc_cagr_eq_ok (arr : List YearEntry) (field : String) {n : ℕ} (hn : n ≠ 0) :
    calc_cagr arr field n = .ok (cagrOpt arr field n) := by
  unfold calc_cagr cagrOpt
  by_cases h1 : arr.length < n + 1
  · simp [h1]
  · simp only [if_neg h1]
    split_ifs with h2
    · rfl
    · rfl

/-! ### The merged record (`app.py:301-328`) -/

/-- The `_source` provenance dict (`app.py:323-327`). -/
structure SourceTag where
  realtime : String
  financials : String
  years_available : ℕ
  deriving Repr, DecidableEq

/-- The merged per-symbol JSON record built by `fullstock` (`app.py:301-328`). -/
structure StockRecord where
  sym : String
  name : String
  sec : String
  industry : String
  cmp : ℚ
  shr : ℚ
  mcapCr : ℚ
  pe : ℚ
  eps : ℚ
  pat : ℚ
  rev : ℚ
  r3 : Option ℝ
  r5 : Option ℝ
  p3 : Option ℝ
  p5 : Option ℝ
  dayChange : ℚ
  dayChangePct : ℚ
  yearHigh : ℚ
  yearLow : ℚ
  bookValue : ℚ
  dividendYield : ℚ
  source : SourceTag

/-- Results of the three provider fetches for one resolution.  Each field is
exactly the value the corresponding Python adapter call returns (`None` or a
data dict); the adapters themselves never raise (`app.py:88-90`, `162-165`,
`200-202`). -/
structure Upstream where
  isma : Option RealtimeQuote
  eodhd : Option FinSeries
  yfin : Option FinSeries

/-- Outcome of the financials fallback (`app.py:279-284`), with the number of
times each financials adapter was invoked. -/
structure FinResolveOut where
  fin : Option FinSeries
  fin_source : Option String
  eodhd_calls : ℕ
  yf_calls : ℕ

/-- Embeds `app.py:279-284` —
`fin = fetch_eodhd_financials(sym); fin_source = "eodhd" if fin else None;`
`if not fin: fin = fetch_yfinance_financials(sym); fin_source = "yfinance" if fin else None`.
(The adapters return `None` or a two-key dict, so Python truthiness of `fin`
coincides with `isSome`.) -/
def finResolve (eodhd yfin : Option FinSeries) : FinResolveOut :=
  match eodhd with
  | some f => ⟨some f, some "eodhd", 1, 0⟩
  | none =>
    match yfin with
    | some g => ⟨some g, some "yfinance", 1, 1⟩
    | none => ⟨none, none, 1, 1⟩

/-- Embeds `app.py:286-328` — the merge step of `fullstock`, given the realtime
result and the already-resolved financials result.  The four `calc_cagr`
calls are evaluated in the order the Python dict literal evaluates them
(`r3`, `r5`, `p3`, `p5`); an exception from any of them would propagate
(modelled by `Except.error`), though for the windows 3 and 5 none occurs. -/
noncomputable def mergeRecord (sym : String) (isma : Option RealtimeQuote)
    (fin : Option FinSeries) (fin_source : Option String) : Except String StockRecord :=
  let cmp : ℚ := match isma with | some q => q.cmp | none => 0
  let mcap_raw : ℚ := match isma with | some q => q.mcap_raw | none => 0
  let mcap_cr : ℚ := if mcap_raw > 1000000 then mcap_raw / 10000000 else mcap_raw
  let pe : ℚ := match isma with | some q => q.pe | none => 0
  let eps : ℚ := match isma with | some q => q.eps | none => 0
  let shr_cr : ℚ := if cmp > 0 ∧ mcap_cr > 0 then mcap_cr / cmp else 0
  let years : List YearEntry := match fin with | some f => f.years | none => []
  let latest_rev : ℚ := match years with | y :: _ => y.rev | [] => 0
  let latest_pat : ℚ := match years with | y :: _ => y.pat | [] => 0
  match calc_cagr years "rev" 3 with
  | .error e => .error e
  | .ok r3 =>
    match calc_cagr years "rev" 5 with
    | .error e => .error e
    | .ok r5 =>
      match calc_cagr years "pat" 3 with
      | .error e => .error e
      | .ok p3 =>
        match calc_cagr years "pat" 5 with
        | .error e => .error e
        | .ok p5 =>
          .ok {
            sym := sym
            name := match isma with | some q => q.name | none => sym
            sec := match isma with | some q => q.sector | none => "Unknown"
            industry := match isma with | some q => q.industry | none => ""
            cmp := cmp
            shr := pyRoundQ shr_cr 2
            mcapCr := pyRoundQ mcap_cr 0
            pe := pe
            eps := eps
            pat := latest_pat
            rev := latest_rev
            r3 := r3
            r5 := r5
            p3 := p3
            p5 := p5
            dayChange := match isma with | some q => q.change | none => 0
            dayChangePct := match isma with | some q => q.changePct | none => 0
            yearHigh := match isma with | some q => q.yearHigh | none => 0
            yearLow := match isma with | some q => q.yearLow | none => 0
            bookValue := match isma with | some q => q.bookValue | none => 0
            dividendYield := match isma with | some q => q.dividendYield | none => 0
            source := ⟨(if isma.isSome then "isma" else "none"),
                       fin_source.getD "none", years.length⟩ }

/-- The record `mergeRecord` always produces (it never actually raises, since
its CAGR windows are 3 and 5); proved in `mergeRecord_eq_ok`. -/
noncomputable def mergedRecord (sym : String) (isma : Option RealtimeQuote)
    (fin : Option FinSeries) (fin_source : Option String) : StockRecord :=
  let cmp : ℚ := match isma with | some q => q.cmp | none => 0
  let mcap_raw : ℚ := match isma with | some q => q.mcap_raw | none => 0
  let mcap_cr : ℚ := if mcap_raw > 1000000 then mcap_raw / 10000000 else mcap_raw
  let shr_cr : ℚ := if cmp > 0 ∧ mcap_cr > 0 then mcap_cr / cmp else 0
  let years : List YearEntry := match fin with | some f => f.years | none => []
  { sym := sym
    name := match isma with | some q => q.name | none => sym
    sec := match isma with | some q => q.sector | none => "Unknown"
    industry := match isma with | some q => q.industry | none => ""
    cmp := cmp
    shr := pyRoundQ shr_cr 2
    mcapCr := pyRoundQ mcap_cr 0
    pe := match isma with | some q => q.pe | none => 0
    eps := match isma with | some q => q.eps | none => 0
    pat := match years with | y :: _ => y.pat | [] => 0
    rev := match years with | y :: _ => y.rev | [] => 0
    r3 := cagrOpt years "rev" 3
    r5 := cagrOpt years "rev" 5
    p3 := cagrOpt years "pat" 3
    p5 := cagrOpt years "pat" 5
    dayChange := match isma with | some q => q.change | none => 0
    dayChangePct := match isma with | some q => q.changePct | none => 0
    yearHigh := match isma with | some q => q.yearHigh | none => 0
    yearLow := match isma with | some q => q.yearLow | none => 0
    bookValue := match isma with | some q => q.bookValue | none => 0
    dividendYield := match isma with | some q => q.dividendYield | none => 0
    source := ⟨(if isma.isSome then "isma" else "none"),
               fin_source.getD "none", years.length⟩ }

theorem calc_cagr_three (arr : List YearEntry) (field : String) :
    calc_cagr arr field 3 = .ok (cagrOpt arr field 3) :=
  calc_cagr_eq_ok arr field (by norm_num)

theorem calc_cagr_five (arr : List YearEntry) (field : String) :
    calc_cagr arr field 5 = .ok (cagrOpt arr field 5) :=
  calc_cagr_eq_ok arr field (by norm_num)

theorem mergeRecord_eq_ok (sym : String) (isma : Option RealtimeQuote)
    (fin : Option FinSeries) (fin_source : Option String) :
    mergeRecord sym isma fin fin_source = .ok (mergedRecord sym isma fin fin_source) := by
  simp only [mergeRecord, mergedRecord, calc_cagr_three, calc_cagr_five]

/-! ### `fullstock` (`app.py:267-337`) -/

/-- Embeds `app.py:267-337` — the `/api/fullstock/<symbol>` handler, as a function of
the provider results `up`, the cache `c` and the current time `now`.
Returns the JSON payload, the cache left behind, and the number of upstream
adapter invocations performed (0 on a cache hit; the cached payload is a
non-empty dict, hence always truthy). -/
noncomputable def fullstock (up : Upstream) (c : Cache StockRecord) (now : ℚ)
    (symbol : String) : Except String (StockRecord × Cache StockRecord × ℕ) :=
  let sym := normalizeSym symbol
  let ck := "full:" ++ sym
  let lk := cached c ck "quote" now
  match lk.1 with
  | some r => .ok (r, lk.2, 0)
  | none =>
    let out := finResolve up.eodhd up.yfin
    match mergeRecord sym up.isma out.fin out.fin_source with
    | .error e => .error e
    | .ok r => .ok (r, set_cache lk.2 ck r now, 1 + out.eodhd_calls + out.yf_calls)

/-- The record produced when every provider returns no data. -/
def zeroRecord (s : String) : StockRecord :=
  { sym := s, name := s, sec := "Unknown", industry := "", cmp := 0, shr := 0,
    mcapCr := 0, pe := 0, eps := 0, pat := 0, rev := 0,
    r3 := none, r5 := none, p3 := none, p5 := none,
    dayChange := 0, dayChangePct := 0, yearHigh := 0, yearLow := 0,
    bookValue := 0, dividendYield := 0,
    source := ⟨"none", "none", 0⟩ }

/-- An all-defaults realtime quote, for concrete instantiations. -/
def baseQuote : RealtimeQuote :=
  { cmp := 0, mcap_raw := 0, pe := 0, eps := 0, sector := "", industry := "",
    name := "", change := 0, changePct := 0, yearHigh := 0, yearLow := 0,
    volume := 0, bookValue := 0, dividendYield := 0 }

theorem pyRoundQ_zero (d : ℕ) : pyRoundQ 0 d = 0 := by
  simp [pyRoundQ, roundHalfEvenQ, Int.fract]

theorem mergedRecord_all_none (s : String) :
    mergedRecord s none none none = zeroRecord s := by
  simp [mergedRecord, zeroRecord, cagrOpt, pyRoundQ_zero]

/-! ### `/api/search` (`app.py:234-264`) -/

/-- One search hit `{sym, name, sec}` (`app.py:106-110`, `255-259`). -/
structure SearchResult where
  sym : String
  name : String
  sec : String
  deriving Repr, DecidableEq

/-- Upstream results available to one `/api/search` request: the list
`search_isma` returns (empty on any failure, `app.py:93-115`) and the optional
single hit the yfinance backup lookup yields (`app.py:248-261`; `none` covers
both "no regularMarketPrice" and the silenced exception). -/
structure SearchUp where
  isma : List SearchResult
  yfBackup : Option SearchResult

/-- The result list a cache-missing `/api/search` request computes
(`app.py:245-261`). -/
def searchFresh (up : SearchUp) : List SearchResult :=
  if up.isma.isEmpty then
    match up.yfBackup with
    | some r => [r]
    | none => []
  else up.isma

/-- Upstream invocations a cache-missing `/api/search` request performs:
`search_isma` always, the yfinance backup only when it returned nothing. -/
def searchCalls (up : SearchUp) : ℕ :=
  if up.isma.isEmpty then 2 else 1

/-- Embeds `app.py:234-264` — the `/api/search` handler.  Returns the payload, the
cache left behind and the number of upstream invocations.  The cache-hit test
is Python `if c:`, which treats a cached *empty list* as falsy — i.e. as a
miss. -/
def search (up : SearchUp) (c : Cache (List SearchResult)) (now : ℚ) (q : String) :
    List SearchResult × Cache (List SearchResult) × ℕ :=
  let qs := pyStrip q
  if qs.length < 2 then ([], c, 0)
  else
    let ck := "search:" ++ pyLower qs
    let lk := cached c ck "search" now
    match lk.1 with
    | some (r :: rs) => (r :: rs, lk.2, 0)
    | _ =>
      let results := searchFresh up
      (results, set_cache lk.2 ck results now, searchCalls up)

/-! ### `/api/batch-quotes` (`app.py:340-374`) -/

/-- One element of the upstream batch response's `stocks` list, with the
fields the handler reads (each already defaulted by `.get(..., 0)`). -/
structure RawStock where
  symbol : String
  company_name : String
  last_price : ℚ
  pe_ratio : ℚ
  market_cap : ℚ
  percent_change : ℚ
  deriving Repr, DecidableEq

/-- One lightweight quote summary (`app.py:362-369`). -/
structure BatchQuote where
  sym : String
  name : String
  cmp : ℚ
  pe : ℚ
  mcapCr : ℚ
  dayChangePct : ℚ
  deriving Repr, DecidableEq

/-- Embeds `app.py:346` — the cache key `f"batch:{'_'.join(sorted(symbols[:20]))}"`.
Python's `sorted` on strings produces the unique `≤`-sorted permutation, which
`List.insertionSort` also computes. -/
def batchKey (symbols : List String) : String :=
  "batch:" ++ String.intercalate "_" (List.insertionSort (· ≤ ·) (symbols.take 20))

/-- Embeds `app.py:351-371` — the result list built from the upstream response.
`none` models a non-200 status, a transport failure or a parsing exception
(in each of those cases `results` stays `[]`). -/
def batchFresh (up : Option (List RawStock)) : List BatchQuote :=
  match up with
  | none => []
  | some stocks =>
    stocks.map (fun s =>
      { sym := s.symbol, name := s.company_name, cmp := s.last_price,
        pe := s.pe_ratio, mcapCr := pyRoundQ (s.market_cap / 10000000) 0,
        dayChangePct := s.percent_change })

/-- Embeds `app.py:340-374` — the `/api/batch-quotes` handler.  Returns the payload,
the cache left behind, the number of upstream batch requests issued, and the
list of symbols sent upstream (empty when nothing was sent).  As in `search`,
the Python cache-hit test `if c:` treats a cached empty list as a miss. -/
def batch_quotes (up : Option (List RawStock)) (c : Cache (List BatchQuote))
    (now : ℚ) (symbols : List String) :
    List BatchQuote × Cache (List BatchQuote) × ℕ × List String :=
  if symbols.isEmpty then ([], c, 0, [])
  else
    let ck := batchKey symbols
    let lk := cached c ck "quote" now
    match lk.1 with
    | some (r :: rs) => (r :: rs, lk.2, 0, [])
    | _ =>
      let queried := (symbols.take 20).map stripSfx
      let results := batchFresh up
      (results, set_cache lk.2 ck results now, 1, queried)

/-! Sanity checks on concrete values (kept as anonymous examples). -/

example : normalizeSym "A.NSB" = "AB" := by decide
example : normalizeSym "tcs.ns" = "TCS" := by decide
example : normalizeSym "INFY.BO" = "INFY" := by decide
example : pyRoundQ (3 / 2) 0 = 2 := by
  norm_num [pyRoundQ, roundHalfEvenQ, Int.fract]
example : pyRoundQ (5 / 2) 0 = 2 := by
  norm_num [pyRoundQ, roundHalfEvenQ, Int.fract]
example : pyRoundQ 500 0 = 500 := by
  norm_num [pyRoundQ, roundHalfEvenQ, Int.fract]
example : specNormalizeSym "A.NSB" = "A.NSB" := by decide

/-! ### Helper lemmas about the cache and the endpoints -/

/-- A payload that is a Python list is truthy only when non-empty; `listHit`
extracts the truthy cache hits. -/
def listHit {α : Type} (o : Option (List α)) : Option (List α) :=
  match o with
  | some (x :: xs) => some (x :: xs)
  | _ => none

theorem cached_nil {α : Type} (key ttl_type : String) (now : ℚ) :
    cached ([] : Cache α) key ttl_type now = (none, []) := rfl

theorem cached_set_cache_fresh {α : Type} (c : Cache α) (key ttl_type : String)
    (v : α) (t now : ℚ) (h : ¬ now - t > TTL ttl_type) :
    cached (set_cache c key v t) key ttl_type now = (some v, set_cache c key v t) := by
  simp [cached, set_cache, List.find?, h]

theorem cached_set_cache_stale {α : Type} (c : Cache α) (key ttl_type : String)
    (v : α) (t now : ℚ) (h : now - t > TTL ttl_type) :
    (cached (set_cache c key v t) key ttl_type now).1 = none := by
  simp [cached, set_cache, List.find?, h]

theorem finResolve_eodhd_calls (e y : Option FinSeries) :
    (finResolve e y).eodhd_calls = 1 := by
  cases e <;> cases y <;> rfl

theorem fullstock_hit (up : Upstream) (c : Cache StockRecord) (now : ℚ)
    (symbol : String) (r : StockRecord)
    (h : (cached c ("full:" ++ normalizeSym symbol) "quote" now).1 = some r) :
    fullstock up c now symbol =
      .ok (r, (cached c ("full:" ++ normalizeSym symbol) "quote" now).2, 0) := by
  simp only [fullstock]
  rw [h]

theorem fullstock_miss (up : Upstream) (c : Cache StockRecord) (now : ℚ)
    (symbol : String)
    (h : (cached c ("full:" ++ normalizeSym symbol) "quote" now).1 = none) :
    fullstock up c now symbol =
      .ok (mergedRecord (normalizeSym symbol) up.isma (finResolve up.eodhd up.yfin).fin
             (finResolve up.eodhd up.yfin).fin_source,
           set_cache (cached c ("full:" ++ normalizeSym symbol) "quote" now).2
             ("full:" ++ normalizeSym symbol)
             (mergedRecord (normalizeSym symbol) up.isma (finResolve up.eodhd up.yfin).fin
               (finResolve up.eodhd up.yfin).fin_source) now,
           1 + (finResolve up.eodhd up.yfin).eodhd_calls + (finResolve up.eodhd up.yfin).yf_calls) := by
  simp only [fullstock]
  rw [h, mergeRecord_eq_ok]

/-- Resolution of an uncached symbol with every provider empty-handed. -/
theorem fullstock_all_none (now : ℚ) (s : String) :
    fullstock ⟨none, none, none⟩ [] now s =
      .ok (zeroRecord (normalizeSym s),
           [("full:" ++ normalizeSym s, ⟨zeroRecord (normalizeSym s), now⟩)], 3) := by
  rw [fullstock_miss ⟨none, none, none⟩ [] now s rfl]
  simp only [finResolve]
  rw [mergedRecord_all_none]
  rfl

/-- A cache-missing `/api/batch-quotes` request with a nonempty symbol list. -/
theorem batch_quotes_fresh (up : Option (List RawStock)) (c : Cache (List BatchQuote))
    (now : ℚ) (symbols : List String) (h1 : symbols ≠ [])
    (h0 : listHit ((cached c (batchKey symbols) "quote" now).1) = none) :
    batch_quotes up c now symbols =
      (batchFresh up,
       set_cache (cached c (batchKey symbols) "quote" now).2 (batchKey symbols)
         (batchFresh up) now,
       1, (symbols.take 20).map stripSfx) := by
  simp only [batch_quotes]
  rw [if_neg (by simpa [List.isEmpty_iff] using h1)]
  rcases hv : (cached c (batchKey symbols) "quote" now).1 with _ | l
  · rfl
  · cases l with
    | nil => rfl
    | cons x xs => rw [hv] at h0; simp [listHit] at h0

/-! ## C1 — resolution always yields a record; all-providers-failed default -/

/-- Modelled from the claim's words: an "all-zero/empty record" (every numeric
field zero, every descriptive string empty, every CAGR absent). -/
def allZeroEmpty (r : StockRecord) : Prop :=
  r.name = "" ∧ r.sec = "" ∧ r.industry = "" ∧
  r.cmp = 0 ∧ r.shr = 0 ∧ r.mcapCr = 0 ∧ r.pe = 0 ∧ r.eps = 0 ∧
  r.pat = 0 ∧ r.rev = 0 ∧ r.r3 = none ∧ r.r5 = none ∧ r.p3 = none ∧ r.p5 = none ∧
  r.dayChange = 0 ∧ r.dayChangePct = 0 ∧ r.yearHigh = 0 ∧ r.yearLow = 0 ∧
  r.bookValue = 0 ∧ r.dividendYield = 0

/-- C1 (amended): resolving any symbol never yields an error, whatever the
providers return and whatever the cache holds; and when every provider
returns no data the result is the default record — numeric fields zero, CAGR
fields absent, industry empty, provenance realtime `"none"` / financials
`"none"` with `years_available` 0 — but with `name` defaulting to the
normalized symbol itself and the sector to `"Unknown"` (so not literally
all-zero/empty), cached under `full:<symbol>` and costing 3 upstream calls. -/
theorem C1_resolution_never_fails :
    (∀ (up : Upstream) (c : Cache StockRecord) (now : ℚ) (symbol : String),
      (fullstock up c now symbol).isOk = true) ∧
    (∀ (now : ℚ) (symbol : String),
      fullstock ⟨none, none, none⟩ [] now symbol =
        .ok (zeroRecord (normalizeSym symbol),
             [("full:" ++ normalizeSym symbol, ⟨zeroRecord (normalizeSym symbol), now⟩)], 3)) := by
  constructor
  · intro up c now symbol
    rcases h : (cached c ("full:" ++ normalizeSym symbol) "quote" now).1 with _ | r
    · rw [fullstock_miss up c now symbol h]; rfl
    · rw [fullstock_hit up c now symbol r h]; rfl
  · exact fullstock_all_none

/-- C1 counterexample to the literal "all-zero/empty record" phrasing: with
every provider failing, the record for `"TCS"` carries `sec = "Unknown"` and
`name = "TCS"`, so it is not all-zero/empty. -/
theorem C1_counterexample :
    fullstock ⟨none, none, none⟩ [] 0 "TCS" =
      .ok (zeroRecord "TCS", [("full:TCS", ⟨zeroRecord "TCS", 0⟩)], 3) ∧
    (zeroRecord "TCS").sec = "Unknown" ∧ ¬ allZeroEmpty (zeroRecord "TCS") := by
  refine ⟨?_, rfl, fun h => absurd h.2.1 (by decide)⟩
  have h := fullstock_all_none 0 "TCS"
  rwa [show normalizeSym "TCS" = "TCS" from by decide] at h

/-! ## C2 — strict financials fallback, never merged -/

/-- C2: the financials fallback is strict.  If EODHD returns data, yfinance is
not invoked (0 calls) and provenance is `"eodhd"`, with the record built
entirely from the EODHD series; if EODHD returns no data, yfinance is invoked
exactly once, with provenance `"yfinance"` when it returns data. -/
theorem C2_financials_strict_fallback :
    (∀ (f : FinSeries) (y : Option FinSeries),
      finResolve (some f) y = ⟨some f, some "eodhd", 1, 0⟩) ∧
    (∀ (g : FinSeries), finResolve none (some g) = ⟨some g, some "yfinance", 1, 1⟩) ∧
    finResolve none none = ⟨none, none, 1, 1⟩ ∧
    (∀ (now : ℚ) (symbol : String) (isma : Option RealtimeQuote) (f : FinSeries)
        (y : Option FinSeries) (r : StockRecord) (c : Cache StockRecord) (k : ℕ),
      fullstock ⟨isma, some f, y⟩ [] now symbol = .ok (r, c, k) →
      r.source.financials = "eodhd" ∧ r.source.years_available = f.years.length ∧ k = 2) := by
  refine ⟨fun f y => rfl, fun g => rfl, rfl, ?_⟩
  intro now symbol isma f y r c k h
  rw [fullstock_miss ⟨isma, some f, y⟩ [] now symbol rfl] at h
  have hr : r = mergedRecord (normalizeSym symbol) isma (some f) (some "eodhd") := by
    injection h with h1; exact (congrArg Prod.fst h1).symm
  have hk : k = 2 := by
    injection h with h1
    have h2 := congrArg (fun p => p.2.2) h1
    simp only [finResolve] at h2
    omega
  subst hr
  exact ⟨rfl, rfl, hk⟩

/-- Demo financial series used by concrete witnesses. -/
def demoFin : FinSeries := ⟨[⟨"2024", 10, 5⟩], 0⟩

theorem C2_witness :
    fullstock ⟨none, some demoFin, none⟩ [] 0 "TCS" =
      .ok (mergedRecord "TCS" none (some demoFin) (some "eodhd"),
           [("full:TCS", ⟨mergedRecord "TCS" none (some demoFin) (some "eodhd"), 0⟩)], 2) ∧
    (mergedRecord "TCS" none (some demoFin) (some "eodhd")).source.financials = "eodhd" ∧
    (mergedRecord "TCS" none (some demoFin) (some "eodhd")).source.years_available = 1 := by
  have hn : normalizeSym "TCS" = "TCS" := by decide
  have h : fullstock ⟨none, some demoFin, none⟩ [] 0 "TCS" =
      .ok (mergedRecord "TCS" none (some demoFin) (some "eodhd"),
           [("full:TCS", ⟨mergedRecord "TCS" none (some demoFin) (some "eodhd"), 0⟩)], 2) := by
    have h0 := fullstock_miss ⟨none, some demoFin, none⟩ [] 0 "TCS" rfl
    rwa [hn] at h0
  have hc := C2_financials_strict_fallback.2.2.2 0 "TCS" none demoFin none
    (mergedRecord "TCS" none (some demoFin) (some "eodhd"))
    [("full:TCS", ⟨mergedRecord "TCS" none (some demoFin) (some "eodhd"), 0⟩)] 2 h
  exact ⟨h, hc.1, hc.2.1⟩

/-! ## C3 — `calc_cagr` characterization -/

/-- The spec's example series `[{rev:200},{rev:150},{rev:100}]` (index 0 most
recent). -/
def demoSeries : List YearEntry := [⟨"y0", 200, 0⟩, ⟨"y1", 150, 0⟩, ⟨"y2", 100, 0⟩]

theorem sqrt2_bounds : (1.4142 : ℝ) < Real.sqrt 2 ∧ Real.sqrt 2 < 1.41422 := by
  have h1 := Real.sq_sqrt (show (0:ℝ) ≤ 2 by norm_num)
  have h2 := Real.sqrt_nonneg 2
  constructor
  · nlinarith
  · nlinarith

theorem pyRoundR_sqrt2 : pyRoundR ((Real.sqrt 2 - 1) * 100) 1 = 414 / 10 := by
  obtain ⟨hlo, hhi⟩ := sqrt2_bounds
  have hfl : ⌊(Real.sqrt 2 - 1) * 100 * 10 ^ 1⌋ = (414 : ℤ) := by
    rw [Int.floor_eq_iff]
    constructor
    · push_cast; nlinarith
    · push_cast; nlinarith
  unfold pyRoundR roundHalfEvenR
  rw [if_neg, round_eq]
  · have h414 : ⌊(Real.sqrt 2 - 1) * 100 * 10 ^ 1 + 1 / 2⌋ = (414 : ℤ) := by
      rw [Int.floor_eq_iff]
      constructor
      · push_cast; nlinarith
      · push_cast; nlinarith
    rw [h414]
    norm_num
  · simp only [Int.fract, hfl]
    intro hc
    push_cast at hc
    nlinarith

theorem calc_cagr_demo : calc_cagr demoSeries "rev" 2 = .ok (some ((414:ℝ) / 10)) := by
  rw [calc_cagr_eq_ok demoSeries "rev" (by norm_num)]
  unfold cagrOpt demoSeries
  simp only [List.length_cons, List.length_nil, List.getD, getField]
  norm_num
  rw [← Real.sqrt_eq_rpow, pyRoundR_sqrt2]
  norm_num

/-- C3 (amended): for every series, numeric field and window `n ≥ 1`,
`calc_cagr` returns `None` when fewer than `n+1` entries exist or either
endpoint value is absent (defaulting to 0) or ≤ 0, and otherwise returns
`((a/b)^(1/n) - 1) * 100` rounded half-to-even to one decimal place; in
particular `calc_cagr([{rev:200},{rev:150},{rev:100}], "rev", 2) = 41.4`.
(For `n = 0` the code instead raises `ZeroDivisionError` — see the
counterexample — so the claim's "for every window n" needs `n ≥ 1`.) -/
theorem C3_cagr_characterization (arr : List YearEntry) (field : String) (n : ℕ)
    (hn : 1 ≤ n) :
    (arr.length < n + 1 → calc_cagr arr field n = .ok none) ∧
    (¬ arr.length < n + 1 →
      (getField (arr.getD n ⟨"", 0, 0⟩) field ≤ 0 ∨ getField (arr.getD 0 ⟨"", 0, 0⟩) field ≤ 0 →
        calc_cagr arr field n = .ok none) ∧
      (0 < getField (arr.getD n ⟨"", 0, 0⟩) field → 0 < getField (arr.getD 0 ⟨"", 0, 0⟩) field →
        calc_cagr arr field n =
          .ok (some (pyRoundR
            ((((getField (arr.getD 0 ⟨"", 0, 0⟩) field : ℝ) /
               (getField (arr.getD n ⟨"", 0, 0⟩) field : ℝ)) ^ ((1:ℝ) / (n:ℝ)) - 1) * 100) 1)))) ∧
    calc_cagr demoSeries "rev" 2 = .ok (some ((414:ℝ) / 10)) := by
  refine ⟨?_, ?_, calc_cagr_demo⟩
  · intro h
    unfold calc_cagr
    rw [if_pos h]
  · intro h
    constructor
    · intro hle
      unfold calc_cagr
      rw [if_neg h]
      simp only []
      rw [if_pos hle]
    · intro hb ha
      unfold calc_cagr
      rw [if_neg h]
      simp only []
      rw [if_neg (by push_neg; exact ⟨hb, ha⟩), if_neg (by omega)]

/-- C3 counterexample: with one positive entry and window `n = 0`, the Python
code raises `ZeroDivisionError` (from `1 / n`) rather than returning either
`None` or a rounded value. -/
theorem C3_counterexample :
    calc_cagr [⟨"2024", 100, 50⟩] "rev" 0 = .error "ZeroDivisionError" := by
  unfold calc_cagr
  norm_num [getField]

theorem C3_witness : calc_cagr demoSeries "rev" 2 = .ok (some ((414:ℝ) / 10)) :=
  (C3_cagr_characterization demoSeries "rev" 2 (by norm_num)).2.2

/-! ## C4 — market-cap unit heuristic -/

/-- C4 (amended): the merged record's `mcapCr` equals the raw market cap
divided by 10,000,000 when the raw value exceeds 1,000,000 and the raw value
unchanged otherwise, *rounded half-to-even to zero decimal places* (the
record stores `round(mcap_cr, 0)`); in particular raw `5_000_000_000` yields
`500` and raw `500` passes through as `500`. -/
theorem C4_mcap_heuristic :
    (∀ (sym : String) (q : RealtimeQuote) (fin : Option FinSeries) (fs : Option String)
        (r : StockRecord), mergeRecord sym (some q) fin fs = .ok r →
      r.mcapCr =
        pyRoundQ (if q.mcap_raw > 1000000 then q.mcap_raw / 10000000 else q.mcap_raw) 0) ∧
    (mergeRecord "X" (some { baseQuote with mcap_raw := 5000000000 }) none none).map
        StockRecord.mcapCr = .ok 500 ∧
    (mergeRecord "X" (some { baseQuote with mcap_raw := 500 }) none none).map
        StockRecord.mcapCr = .ok 500 := by
  refine ⟨?_, ?_, ?_⟩
  · intro sym q fin fs r h
    rw [mergeRecord_eq_ok] at h
    injection h with h1
    rw [← h1]
    rfl
  · rw [mergeRecord_eq_ok]
    refine congrArg Except.ok ?_
    show pyRoundQ (if (5000000000:ℚ) > 1000000 then (5000000000:ℚ) / 10000000 else 5000000000) 0 = 500
    norm_num [pyRoundQ, roundHalfEvenQ, Int.fract]
  · rw [mergeRecord_eq_ok]
    refine congrArg Except.ok ?_
    show pyRoundQ (if (500:ℚ) > 1000000 then (500:ℚ) / 10000000 else 500) 0 = 500
    norm_num [pyRoundQ, roundHalfEvenQ, Int.fract]

theorem C4_witness :
    (mergeRecord "W" (some { baseQuote with mcap_raw := 20000000 }) none none).map
        StockRecord.mcapCr =
      .ok (pyRoundQ (if (20000000:ℚ) > 1000000 then (20000000:ℚ) / 10000000 else 20000000) 0) := by
  have h := C4_mcap_heuristic.1 "W" { baseQuote with mcap_raw := 20000000 } none none
    (mergedRecord "W" (some { baseQuote with mcap_raw := 20000000 }) none none)
    (mergeRecord_eq_ok "W" (some { baseQuote with mcap_raw := 20000000 }) none none)
  rw [mergeRecord_eq_ok]
  exact congrArg Except.ok h

/-- C4 counterexample: for raw market cap `15_000_000` (> 1,000,000) the
record's `mcapCr` is `round(1.5, 0) = 2`, not the claimed `raw / 10^7 = 1.5`. -/
theorem C4_counterexample :
    (mergeRecord "X" (some { baseQuote with mcap_raw := 15000000 }) none none).map
        StockRecord.mcapCr = .ok 2 ∧
    (15000000 : ℚ) / 10000000 ≠ 2 := by
  constructor
  · rw [mergeRecord_eq_ok]
    refine congrArg Except.ok ?_
    show pyRoundQ (if (15000000:ℚ) > 1000000 then (15000000:ℚ) / 10000000 else 15000000) 0 = 2
    norm_num [pyRoundQ, roundHalfEvenQ, Int.fract]
  · norm_num

/-! ## C6 — shares outstanding is always derived; provider count is ignored -/

/-- C6 (amended): the merged record's `shr` is always the derived value
`round(marketCapCrores / price, 2)` when `price > 0` and `marketCapCrores > 0`
and `0` otherwise; a provider-supplied shares-outstanding count is fetched but
never used — two financial series differing only in `shares` produce identical
merged records. -/
theorem C6_shares_always_derived :
    (∀ (sym : String) (isma : Option RealtimeQuote) (years : List YearEntry)
        (s1 s2 : ℚ) (fs : Option String),
      mergeRecord sym isma (some ⟨years, s1⟩) fs = mergeRecord sym isma (some ⟨years, s2⟩) fs) ∧
    (∀ (sym : String) (q : RealtimeQuote) (fin : Option FinSeries) (fs : Option String)
        (r : StockRecord), mergeRecord sym (some q) fin fs = .ok r →
      r.shr =
        pyRoundQ
          (if q.cmp > 0 ∧ (if q.mcap_raw > 1000000 then q.mcap_raw / 10000000 else q.mcap_raw) > 0
           then (if q.mcap_raw > 1000000 then q.mcap_raw / 10000000 else q.mcap_raw) / q.cmp
           else 0) 2) := by
  constructor
  · intro sym isma years s1 s2 fs
    rfl
  · intro sym q fin fs r h
    rw [mergeRecord_eq_ok] at h
    injection h with h1
    rw [← h1]
    rfl

/-- C6 counterexample: yfinance supplies `shares = 999`, yet the merged record
reports the derived `shr = round(500 / 100, 2) = 5`, not `999`. -/
theorem C6_counterexample :
    (mergeRecord "X" (some { baseQuote with cmp := 100, mcap_raw := 5000000000 })
        (some ⟨[⟨"2024", 10, 5⟩], 999⟩) (some "yfinance")).map StockRecord.shr = .ok 5 ∧
    (5 : ℚ) ≠ 999 := by
  constructor
  · rw [mergeRecord_eq_ok]
    refine congrArg Except.ok ?_
    show pyRoundQ
        (if (100:ℚ) > 0 ∧ (if (5000000000:ℚ) > 1000000 then (5000000000:ℚ) / 10000000 else 5000000000) > 0
         then (if (5000000000:ℚ) > 1000000 then (5000000000:ℚ) / 10000000 else 5000000000) / 100
         else 0) 2 = 5
    norm_num [pyRoundQ, roundHalfEvenQ, Int.fract]
  · norm_num

theorem C6_witness :
    (mergeRecord "Y" none (some ⟨[⟨"2024", 10, 5⟩], 111⟩) (some "yfinance") =
      mergeRecord "Y" none (some ⟨[⟨"2024", 10, 5⟩], 222⟩) (some "yfinance")) ∧
    (mergedRecord "Z" (some { baseQuote with cmp := 10, mcap_raw := 50 }) none none).shr =
      pyRoundQ
        (if (10:ℚ) > 0 ∧ (if (50:ℚ) > 1000000 then (50:ℚ) / 10000000 else 50) > 0
         then (if (50:ℚ) > 1000000 then (50:ℚ) / 10000000 else 50) / 10
         else 0) 2 :=
  ⟨C6_shares_always_derived.1 "Y" none [⟨"2024", 10, 5⟩] 111 222 (some "yfinance"),
   C6_shares_always_derived.2 "Z" { baseQuote with cmp := 10, mcap_raw := 50 } none none
     (mergedRecord "Z" (some { baseQuote with cmp := 10, mcap_raw := 50 }) none none)
     (mergeRecord_eq_ok "Z" (some { baseQuote with cmp := 10, mcap_raw := 50 }) none none)⟩

/-! ## C5 — quote-cache TTL behaviour of `fullstock` -/

theorem TTL_quote : TTL "quote" = 300 := rfl

theorem TTL_search : TTL "search" = 86400 := rfl

/-- C5: starting from a state where the symbol is uncached, a resolution at
`t0` followed by a second resolution of the same symbol at `t1` within the
300-second quote TTL returns the identical payload with zero upstream calls
and an unchanged cache; once the TTL has elapsed the next resolution misses
the cache and performs a fresh upstream request (≥ 2 provider calls). -/
theorem C5_cache_ttl (up1 up2 : Upstream) (c0 : Cache StockRecord) (t0 t1 : ℚ)
    (s : String) (r1 : StockRecord) (c1 : Cache StockRecord) (k1 : ℕ)
    (h0 : (cached c0 ("full:" ++ normalizeSym s) "quote" t0).1 = none)
    (h1 : fullstock up1 c0 t0 s = .ok (r1, c1, k1)) :
    (t1 - t0 ≤ 300 → fullstock up2 c1 t1 s = .ok (r1, c1, 0)) ∧
    (t1 - t0 > 300 → ∃ r2 c2 k2, fullstock up2 c1 t1 s = .ok (r2, c2, k2) ∧ 2 ≤ k2) := by
  rw [fullstock_miss up1 c0 t0 s h0] at h1
  injection h1 with h1'
  injection h1' with hr hrest
  injection hrest with hc hk
  subst hr
  subst hc
  constructor
  · intro ht
    have hfresh := cached_set_cache_fresh (cached c0 ("full:" ++ normalizeSym s) "quote" t0).2
      ("full:" ++ normalizeSym s) "quote"
      (mergedRecord (normalizeSym s) up1.isma (finResolve up1.eodhd up1.yfin).fin
        (finResolve up1.eodhd up1.yfin).fin_source) t0 t1
      (by rw [TTL_quote]; linarith)
    rw [fullstock_hit up2 _ t1 s _ (by rw [hfresh])]
    rw [hfresh]
  · intro ht
    have hstale := cached_set_cache_stale (cached c0 ("full:" ++ normalizeSym s) "quote" t0).2
      ("full:" ++ normalizeSym s) "quote"
      (mergedRecord (normalizeSym s) up1.isma (finResolve up1.eodhd up1.yfin).fin
        (finResolve up1.eodhd up1.yfin).fin_source) t0 t1
      (by rw [TTL_quote]; linarith)
    rw [fullstock_miss up2 _ t1 s hstale]
    exact ⟨_, _, _, rfl, by rw [finResolve_eodhd_calls]; omega⟩

theorem C5_witness :
    fullstock ⟨none, none, none⟩
        [("full:" ++ normalizeSym "TCS", ⟨zeroRecord (normalizeSym "TCS"), 0⟩)] 100 "TCS" =
      .ok (zeroRecord (normalizeSym "TCS"),
           [("full:" ++ normalizeSym "TCS", ⟨zeroRecord (normalizeSym "TCS"), 0⟩)], 0) :=
  (C5_cache_ttl ⟨none, none, none⟩ ⟨none, none, none⟩ [] 0 100 "TCS"
      (zeroRecord (normalizeSym "TCS"))
      [("full:" ++ normalizeSym "TCS", ⟨zeroRecord (normalizeSym "TCS"), 0⟩)] 3
      rfl (fullstock_all_none 0 "TCS")).1 (by norm_num)

/-! ## C7 — batch endpoint limits and failure behaviour -/

/-- C7: the batch-quotes operation sends upstream at most the first 20
submitted symbols with exchange suffixes stripped, returns an empty array
without touching the cache or upstream when the list is empty, and turns any
transport/parsing failure (`up = none`) into an empty result list. -/
theorem C7_batch_limits (up : Option (List RawStock)) (c : Cache (List BatchQuote))
    (now : ℚ) (symbols : List String) :
    batch_quotes up c now [] = ([], c, 0, []) ∧
    (symbols ≠ [] →
      listHit ((cached c (batchKey symbols) "quote" now).1) = none →
      batch_quotes up c now symbols =
        (batchFresh up,
         set_cache (cached c (batchKey symbols) "quote" now).2 (batchKey symbols)
           (batchFresh up) now,
         1, (symbols.take 20).map stripSfx)) ∧
    batchFresh none = [] :=
  ⟨rfl, fun h1 h0 => batch_quotes_fresh up c now symbols h1 h0, rfl⟩

/-- Twenty-five symbols, for the batch-limit witness. -/
def demoSyms : List String :=
  ["A.NS", "B", "C", "D", "E", "F", "G", "H", "I", "J",
   "K", "L", "M", "N", "O", "P", "Q", "R", "S", "T.BO",
   "U", "V", "W", "X", "Y"]

theorem C7_witness :
    batch_quotes none [] 0 demoSyms =
      ([], [(batchKey demoSyms, ⟨[], 0⟩)], 1, (demoSyms.take 20).map stripSfx) ∧
    (demoSyms.take 20).map stripSfx =
      ["A", "B", "C", "D", "E", "F", "G", "H", "I", "J",
       "K", "L", "M", "N", "O", "P", "Q", "R", "S", "T"] ∧
    demoSyms.length = 25 := by
  refine ⟨?_, by decide, by decide⟩
  exact (C7_batch_limits none [] 0 demoSyms).2.1 (by decide) rfl

/-! ## C8 — symbol normalization -/

/-- C8 (amended): resolution normalizes the requested symbol by upper-casing
it and removing **every** occurrence of the substring `.NS` and then of
`.BO` (not only trailing suffixes); the normalized form is the record's
`sym` field and the cache key is `full:<normalized symbol>`. -/
theorem C8_normalization (up : Upstream) (now : ℚ) (symbol : String)
    (r : StockRecord) (c' : Cache StockRecord) (k : ℕ)
    (h : fullstock up [] now symbol = .ok (r, c', k)) :
    r.sym = normalizeSym symbol ∧
    c' = [("full:" ++ normalizeSym symbol, ⟨r, now⟩)] ∧
    normalizeSym symbol = pyReplace (pyReplace (pyUpper symbol) ".NS" "") ".BO" "" := by
  rw [fullstock_miss up [] now symbol rfl] at h
  injection h with h1
  injection h1 with hr hrest
  injection hrest with hc hk
  subst hr
  exact ⟨rfl, hc.symm, rfl⟩

theorem C8_witness :
    (zeroRecord (normalizeSym "tcs.ns")).sym = normalizeSym "tcs.ns" ∧
    normalizeSym "tcs.ns" = "TCS" :=
  ⟨(C8_normalization ⟨none, none, none⟩ 0 "tcs.ns" _ _ _ (fullstock_all_none 0 "tcs.ns")).1,
   by decide⟩

/-- C8 counterexample: the substring `.NS` is removed even when it is not a
trailing suffix — resolving `"A.NSB"` stores and reports `sym = "AB"`, while
stripping only a trailing suffix (the spec reading) would leave `"A.NSB"`. -/
theorem C8_counterexample :
    (fullstock ⟨none, none, none⟩ [] 0 "A.NSB").map (fun p => p.1.sym) = .ok "AB" ∧
    specNormalizeSym "A.NSB" = "A.NSB" ∧ ("AB" : String) ≠ "A.NSB" := by
  refine ⟨?_, by decide, by decide⟩
  rw [fullstock_all_none 0 "A.NSB"]
  refine congrArg Except.ok ?_
  show normalizeSym "A.NSB" = "AB"
  decide

/-! ## C9 — a cached empty list behaves like a cache miss -/

/-- C9: for search and batch-quotes, a fresh cache entry holding the empty
list is treated as a miss (Python `if c:` tests payload truthiness): the
upstream provider is re-invoked and the entry is overwritten with the fresh
result. -/
theorem C9_cached_empty_list_is_miss
    (upS : SearchUp) (upB : Option (List RawStock))
    (cS : Cache (List SearchResult)) (cB : Cache (List BatchQuote))
    (now : ℚ) (q : String) (symbols : List String)
    (hq : ¬ (pyStrip q).length < 2)
    (hS : (cached cS ("search:" ++ pyLower (pyStrip q)) "search" now).1 = some [])
    (hsy : symbols ≠ [])
    (hB : (cached cB (batchKey symbols) "quote" now).1 = some []) :
    (search upS cS now q =
      (searchFresh upS,
       set_cache (cached cS ("search:" ++ pyLower (pyStrip q)) "search" now).2
         ("search:" ++ pyLower (pyStrip q)) (searchFresh upS) now,
       searchCalls upS) ∧
     1 ≤ searchCalls upS) ∧
    batch_quotes upB cB now symbols =
      (batchFresh upB,
       set_cache (cached cB (batchKey symbols) "quote" now).2 (batchKey symbols)
         (batchFresh upB) now,
       1, (symbols.take 20).map stripSfx) := by
  refine ⟨⟨?_, ?_⟩, batch_quotes_fresh upB cB now symbols hsy (by rw [hB]; rfl)⟩
  · simp only [search]
    rw [if_neg hq, hS]
  · unfold searchCalls
    split <;> norm_num

/-- Demo search hit for the C9 witness. -/
def demoSearchHit : SearchResult := ⟨"TCS", "Tata Consultancy", "NSE"⟩

theorem C9_witness :
    search ⟨[demoSearchHit], none⟩ [("search:ab", ⟨[], 0⟩)] 10 "ab" =
      ([demoSearchHit], [("search:ab", ⟨[demoSearchHit], 10⟩)], 1) ∧
    batch_quotes (some []) [(batchKey ["X"], ⟨[], 0⟩)] 10 ["X"] =
      ([], [(batchKey ["X"], ⟨[], 10⟩)], 1, ["X"]) := by
  have hk : "search:" ++ pyLower (pyStrip "ab") = "search:ab" := by decide
  have hS : (cached ([("search:ab", ⟨[], 0⟩)] : Cache (List SearchResult))
      ("search:" ++ pyLower (pyStrip "ab")) "search" 10).1 = some [] := by
    rw [hk]
    exact congrArg Prod.fst
      (cached_set_cache_fresh ([] : Cache (List SearchResult)) "search:ab" "search" [] 0 10
        (by rw [TTL_search]; norm_num))
  have hB : (cached ([(batchKey ["X"], ⟨[], 0⟩)] : Cache (List BatchQuote))
      (batchKey ["X"]) "quote" 10).1 = some [] :=
    congrArg Prod.fst
      (cached_set_cache_fresh ([] : Cache (List BatchQuote)) (batchKey ["X"]) "quote" [] 0 10
        (by rw [TTL_quote]; norm_num))
  have h := C9_cached_empty_list_is_miss ⟨[demoSearchHit], none⟩ (some [])
    [("search:ab", ⟨[], 0⟩)] [(batchKey ["X"], ⟨[], 0⟩)] 10 "ab" ["X"]
    (by decide) hS (by decide) hB
  obtain ⟨⟨hsearch, -⟩, hbatch⟩ := h
  have hx : stripSfx "X" = "X" := by decide
  constructor
  · rw [hsearch, hk]
    norm_num [searchFresh, searchCalls, set_cache, cached, TTL_search, List.find?, List.filter]
  · rw [hbatch]
    norm_num [batchFresh, set_cache, cached, TTL_quote, List.find?, List.filter, hx]

/-! ## C10 — batch cache key is permutation-invariant on the first 20 -/

theorem batchKey_perm (s1 s2 : List String) (h : List.Perm (s1.take 20) (s2.take 20)) :
    batchKey s1 = batchKey s2 := by
  unfold batchKey
  have e : List.insertionSort (α := String) (· ≤ ·) (s1.take 20) =
      List.insertionSort (· ≤ ·) (s2.take 20) :=
    List.eq_of_perm_of_sorted
      (((List.perm_insertionSort _ _).trans h).trans (List.perm_insertionSort _ _).symm)
      (List.sorted_insertionSort _ _) (List.sorted_insertionSort _ _)
  rw [e]

/-- A cache-hitting `/api/batch-quotes` request (nonempty symbols, truthy
cached payload). -/
theorem batch_quotes_hit (up : Option (List RawStock)) (c : Cache (List BatchQuote))
    (now : ℚ) (symbols : List String) (x : BatchQuote) (xs : List BatchQuote)
    (h1 : symbols ≠ [])
    (h : (cached c (batchKey symbols) "quote" now).1 = some (x :: xs)) :
    batch_quotes up c now symbols =
      (x :: xs, (cached c (batchKey symbols) "quote" now).2, 0, []) := by
  simp only [batch_quotes]
  rw [if_neg (by simpa [List.isEmpty_iff] using h1), h]

/-- C10: two non-empty batch requests whose first-20 symbol lists are
permutations of each other map to the same cache key; after the first
resolves (from a miss) with a non-empty result, the second within the TTL
returns that cached result with zero upstream calls. -/
theorem C10_batch_key_perm (s1 s2 : List String) (up1 up2 : Option (List RawStock))
    (c0 : Cache (List BatchQuote)) (t0 t1 : ℚ)
    (r1 : List BatchQuote) (c1 : Cache (List BatchQuote)) (k1 : ℕ) (q1 : List String)
    (h1 : s1 ≠ []) (h2 : s2 ≠ []) (hp : List.Perm (s1.take 20) (s2.take 20))
    (h0 : listHit ((cached c0 (batchKey s1) "quote" t0).1) = none)
    (hcall : batch_quotes up1 c0 t0 s1 = (r1, c1, k1, q1))
    (hne : r1 ≠ []) (ht : t1 - t0 ≤ 300) :
    batchKey s1 = batchKey s2 ∧ batch_quotes up2 c1 t1 s2 = (r1, c1, 0, []) := by
  have hkey := batchKey_perm s1 s2 hp
  refine ⟨hkey, ?_⟩
  rw [batch_quotes_fresh up1 c0 t0 s1 h1 h0] at hcall
  injection hcall with hr hrest
  injection hrest with hc hrest2
  subst hr
  subst hc
  have hfresh := cached_set_cache_fresh (cached c0 (batchKey s1) "quote" t0).2
    (batchKey s1) "quote" (batchFresh up1) t0 t1 (by rw [TTL_quote]; linarith)
  rcases hb : batchFresh up1 with _ | ⟨x, xs⟩
  · exact absurd hb hne
  · rw [hb] at hfresh
    have hhit := batch_quotes_hit up2 _ t1 s2 x xs h2
      (by rw [← hkey, hfresh])
    rw [hhit, ← hkey, hfresh]

theorem C10_witness :
    batchKey ["B", "A"] = batchKey ["A", "B"] ∧
    batch_quotes (some [⟨"A", "Ay", 1, 2, 3, 4⟩])
        ((batch_quotes (some [⟨"A", "Ay", 1, 2, 3, 4⟩]) [] 0 ["B", "A"]).2.1) 10 ["A", "B"] =
      ((batch_quotes (some [⟨"A", "Ay", 1, 2, 3, 4⟩]) [] 0 ["B", "A"]).1,
       (batch_quotes (some [⟨"A", "Ay", 1, 2, 3, 4⟩]) [] 0 ["B", "A"]).2.1, 0, []) :=
  C10_batch_key_perm ["B", "A"] ["A", "B"] (some [⟨"A", "Ay", 1, 2, 3, 4⟩])
    (some [⟨"A", "Ay", 1, 2, 3, 4⟩]) [] 0 10 _ _ _ _
    (by decide) (by decide) (by decide) rfl rfl
    (by simp [batch_quotes, batchFresh, cached]) (by norm_num)

end ValueLens
